import Mathlib

set_option maxHeartbeats 1000000

/- Shallow embedding of the load-n-cache library (monesidn/load-n-cache).

   Embedded sources:
   * src/util/TimestampedValue.ts             : TimestampedValue
   * src/util/PromiseWithMetadata.ts          : PromiseWithMetadata (private constructor
     plus the static from method, split here into its two branches)
   * src/autoflush/DefaultAutoflushManager.ts : computeTtl, isExpired
   * src/LoadNCache.ts                        : the cache core (get, flush, loadNewValue,
     callLoadFunction, safelyCallPersist, safelyCallClear, prepareFlushCbFor)

   Concurrency model: the library runs under single-threaded cooperative scheduling,
   so execution between two suspension points (awaits) is atomic.  The machine below
   has one deterministic transition per atomic segment of the code; a scheduler-chosen
   list of actions decides the interleaving and the results of the external awaits
   (persistence reads, loader settlement, expiry answers, timers).  JS reference
   identity of PromiseWithMetadata objects is modelled by a fresh Nat id allocated at
   construction time; the shared promise object held in the LoadNCache promise field
   is likewise modelled by the Nat id allocated when the field is written. -/

/-- TimestampedValue (src/util/TimestampedValue.ts): the wire shape
    of a persisted value, an object with a numeric ts and a value field. -/
structure TimestampedValue (α : Type) where
  ts : Int
  value : α

/-- PromiseWithMetadata (src/util/PromiseWithMetadata.ts).  The wrapped promise is
    represented by its settlement in `result`; `id` models JS reference identity.
    The private constructor sets `timestampedValue` iff `resolved` is true, pairing
    `completedAt` with the resolved value. -/
structure PromiseWithMetadata (α ε : Type) where
  id : Nat
  resolved : Bool
  rejected : Bool
  completedAt : Int
  result : Except ε α
  timestampedValue : Option (TimestampedValue α)

variable {α ε : Type}

/-- The branch of PromiseWithMetadata.from taken when the argument is a
    TimestampedValue: `new PromiseWithMetadata(true, false, arg1.ts,
    Promise.resolve(arg1.value), arg1.value)`.  The loader is not involved, and the
    persisted timestamp is used verbatim as completedAt. -/
def PromiseWithMetadata.fromTimestamped (id : Nat) (tv : TimestampedValue α) :
    PromiseWithMetadata α ε :=
  { id := id
    resolved := true
    rejected := false
    completedAt := tv.ts
    result := Except.ok tv.value
    timestampedValue := some { ts := tv.ts, value := tv.value } }

/-- The branch of PromiseWithMetadata.from taken when the argument is a promise:
    from awaits the promise once, records resolved or rejected, and stamps
    completedAt with `new Date().getTime()` taken after the await, i.e. at the
    moment the load attempt completed (the `now` argument here).  The private
    constructor then builds timestampedValue iff resolved. -/
def PromiseWithMetadata.fromSettled (id : Nat) (r : Except ε α) (now : Int) :
    PromiseWithMetadata α ε :=
  match r with
  | Except.ok v =>
    { id := id
      resolved := true
      rejected := false
      completedAt := now
      result := Except.ok v
      timestampedValue := some { ts := now, value := v } }
  | Except.error e =>
    { id := id
      resolved := false
      rejected := true
      completedAt := now
      result := Except.error e
      timestampedValue := none }

/-- computeTtl (src/autoflush/DefaultAutoflushManager.ts lines 25-29):
    `flushAt - now` with `flushAt = timestamp + ttl`. -/
def computeTtl (ttl now timestamp : Int) : Int :=
  timestamp + ttl - now

/-- isExpired of the default time-based policy
    (src/autoflush/DefaultAutoflushManager.ts lines 35-37):
    `this.computeTtl(value.completedAt) <= 0`. -/
def DefaultAutoflushManager.isExpired (ttl now : Int) (value : PromiseWithMetadata α ε) :
    Bool :=
  decide (computeTtl ttl now value.completedAt ≤ 0)

/-- Behaviour of one invocation of the configured loader: it may throw synchronously,
    return a plain (non promise) value, or return a promise that settles later. -/
inductive LoaderReturn (α ε : Type)
| throwsSync (e : ε)
| value (a : α)
| promiseSettling

/-- callLoadFunction (src/LoadNCache.ts lines 107-109): the `async` wrapper around
    `this.config.loader()`.  Because the wrapper is async, a synchronous throw from
    the loader becomes a rejection of the returned promise and a plain return value
    an immediate resolution; a returned promise is adopted, so its settlement is
    only known later (`none` here, supplied by the scheduler at settlement time). -/
def callLoadFunction : LoaderReturn α ε → Option (Except ε α)
| LoaderReturn.throwsSync e => some (Except.error e)
| LoaderReturn.value a => some (Except.ok a)
| LoaderReturn.promiseSettling => none

/-- The four lifecycle notifications emitted by the cache core. -/
inductive Ev
| beforeLoad
| afterLoad
| beforeFlush
| afterFlush

/-- Result of awaiting persistenceManager.loadValue() inside loadNewValue:
    either the promise resolves (with a value passing the isTimestampedValue guard,
    or with undefined or a malformed value, collapsed to `ok none`), or it rejects
    (`threw`), landing in the catch branch. -/
inductive StoreLoadResult (α : Type)
| ok (v : Option (TimestampedValue α))
| threw

/-- The suspension point at which an in-flight load sequence of
    get/loadNewValue (src/LoadNCache.ts lines 116-140 and 192-206) is parked:
    * storeLoad    : at `await this.persistenceManager.loadValue()` (line 119)
    * fromTV       : at `await PromiseWithMetadata.from(val)` (line 124)
    * expiryCheck  : at `await this.autoflushManager.isExpired(metadata)` (line 126)
    * loaderWait   : at the await of the loader promise inside
                     `PromiseWithMetadata.from(this.callLoadFunction())` (line 139);
                     `pre` is the settlement already determined at invocation time
                     (sync throw or plain value), none for a real promise
    * persistWait  : inside the then-continuation, metadata already assigned, at
                     `await this.safelyCallPersist(this.metadata)` (line 196). -/
inductive Phase (α ε : Type)
| storeLoad
| fromTV (tv : TimestampedValue α)
| expiryCheck (m : PromiseWithMetadata α ε)
| loaderWait (pre : Option (Except ε α))
| persistWait (m : PromiseWithMetadata α ε)

/-- One in-flight load sequence: the id of the shared promise object created for it
    by get, and the suspension point it is parked at. -/
structure LoadTask (α ε : Type) where
  pid : Nat
  phase : Phase α ε

/-- The state of one LoadNCache instance together with the observation logs used by
    the theorems.  `promise` and `metadata` are the two slots of the class
    (src/LoadNCache.ts lines 43-48), `firstLoad` the flag of line 53.
    `pending` holds the parked load sequences, `pendingFlushes` the number of flush
    calls parked at `await this.safelyCallClear()` (line 229).  The remaining fields
    log observable interactions: emitted events, settlements of shared promises,
    loader invocations, loadValue/clear invocations on the persistence manager,
    values passed to saveValue, PromiseWithMetadata objects passed to
    safelyCallPersist, registrations via autoflushManager.fetched (recording the
    identity captured by prepareFlushCbFor, none when this.metadata was undefined),
    and outcome ids passed to autoflushManager.flushed. -/
structure CacheState (α ε : Type) where
  disableEvents : Bool
  hasAutoflush : Bool
  promise : Option Nat
  metadata : Option (PromiseWithMetadata α ε)
  firstLoad : Bool
  nextId : Nat
  pending : List (LoadTask α ε)
  pendingFlushes : Nat
  events : List Ev
  settled : List (Nat × Except ε α)
  loaderCalls : Nat
  storeLoads : Nat
  storeClears : Nat
  saves : List (TimestampedValue α)
  persistCalls : List (PromiseWithMetadata α ε)
  autoflushRegs : List (Option Nat)
  flushedCalls : List Nat

/-- The state of a freshly constructed instance: both slots empty, firstLoad true,
    no pending work, empty logs.  `de` is config.disableEvents, `ha` records whether
    an autoflushManager was configured. -/
def initState (α ε : Type) (de ha : Bool) : CacheState α ε :=
  { disableEvents := de
    hasAutoflush := ha
    promise := none
    metadata := none
    firstLoad := true
    nextId := 0
    pending := []
    pendingFlushes := 0
    events := []
    settled := []
    loaderCalls := 0
    storeLoads := 0
    storeClears := 0
    saves := []
    persistCalls := []
    autoflushRegs := []
    flushedCalls := [] }

/-- `this.emit(e, this)` guarded by `if (!this.config.disableEvents)`. -/
def emit (s : CacheState α ε) (e : Ev) : CacheState α ε :=
  if s.disableEvents then s else { s with events := s.events ++ [e] }

/-- Repark the load sequence with promise id `pid` at a new suspension point. -/
def setPhase (s : CacheState α ε) (pid : Nat) (ph : Phase α ε) : CacheState α ε :=
  { s with
    pending := s.pending.map (fun t => if t.pid = pid then { t with phase := ph } else t) }

/-- Find the in-flight load sequence attached to promise id `pid`. -/
def findTask (s : CacheState α ε) (pid : Nat) : Option (LoadTask α ε) :=
  s.pending.find? (fun t => t.pid == pid)

/-- The fall-through of loadNewValue (src/LoadNCache.ts line 139):
    `return PromiseWithMetadata.from(this.callLoadFunction());`.
    callLoadFunction invokes the loader synchronously; from then suspends awaiting
    the returned promise. -/
def invokeLoader (s : CacheState α ε) (pid : Nat) (ret : LoaderReturn α ε) :
    CacheState α ε :=
  setPhase { s with loaderCalls := s.loaderCalls + 1 } pid
    (Phase.loaderWait (callLoadFunction ret))

/-- The tail of the get continuation after the safelyCallPersist await, or reached
    directly when the outcome was not resolved (src/LoadNCache.ts lines 198-205):
    register with the autoflush manager, capturing the CURRENT `this.metadata` for
    prepareFlushCbFor (these lines run after the await of line 196, so they read the
    field again), emit after-load, settle the shared promise with the captured
    outcome's result, and drop the finished task. -/
def contFinish (s : CacheState α ε) (pid : Nat) (m : PromiseWithMetadata α ε) :
    CacheState α ε :=
  { emit s Ev.afterLoad with
    autoflushRegs :=
      if s.hasAutoflush then s.autoflushRegs ++ [s.metadata.map (fun x => x.id)]
      else s.autoflushRegs
    settled := s.settled ++ [(pid, m.result)]
    pending := s.pending.filter (fun t => t.pid ≠ pid) }

/-- The synchronous head of the get continuation, run when loadNewValue resolves
    with outcome `m` (src/LoadNCache.ts lines 192-197): `this.metadata = metadata`,
    then, when the outcome is resolved, call safelyCallPersist — which reads
    `metadata.timestampedValue` and invokes persistenceManager.saveValue on it when
    present — and suspend awaiting it.  A rejected outcome skips the persist call
    and suspension entirely and runs the tail at once. -/
def contStart (s : CacheState α ε) (pid : Nat) (m : PromiseWithMetadata α ε) :
    CacheState α ε :=
  if m.resolved then
    setPhase
      { s with
        metadata := some m
        persistCalls := s.persistCalls ++ [m]
        saves := s.saves ++
          (match m.timestampedValue with
           | some tv => [tv]
           | none => []) }
      pid (Phase.persistWait m)
  else
    contFinish { s with metadata := some m } pid m

/-- The synchronous part of get() (src/LoadNCache.ts lines 184-210).  When the
    promise slot is occupied, return it unchanged.  Otherwise emit before-load and
    start loadNewValue: the new shared promise is written to the slot within the
    same synchronous segment, before the first suspension point, which is the
    loadValue await when firstLoad is true (loadValue being invoked here) and the
    loader await otherwise (the loader being invoked here).  Returns the state and
    the id of the promise handed to the caller. -/
def doGet (s : CacheState α ε) (ret : LoaderReturn α ε) : CacheState α ε × Nat :=
  match s.promise with
  | some pid => (s, pid)
  | none =>
    if s.firstLoad then
      ({ emit s Ev.beforeLoad with
         nextId := s.nextId + 1
         promise := some s.nextId
         storeLoads := s.storeLoads + 1
         pending := s.pending ++ [{ pid := s.nextId, phase := Phase.storeLoad }] },
       s.nextId)
    else
      ({ emit s Ev.beforeLoad with
         nextId := s.nextId + 1
         promise := some s.nextId
         loaderCalls := s.loaderCalls + 1
         pending := s.pending ++
           [{ pid := s.nextId, phase := Phase.loaderWait (callLoadFunction ret) }] },
       s.nextId)

/-- The synchronous part of flush() (src/LoadNCache.ts lines 216-229): return at
    once when no metadata is held; otherwise emit before-flush, inform the autoflush
    manager via flushed, clear both slots, invoke persistenceManager.clear inside
    safelyCallClear and suspend awaiting it (the after-flush emission happens on
    resumption). -/
def doFlush (s : CacheState α ε) : CacheState α ε :=
  match s.metadata with
  | none => s
  | some m =>
    { emit s Ev.beforeFlush with
      flushedCalls :=
        if s.hasAutoflush then s.flushedCalls ++ [m.id] else s.flushedCalls
      metadata := none
      promise := none
      storeClears := s.storeClears + 1
      pendingFlushes := s.pendingFlushes + 1 }

/-- The scheduler alphabet: external calls into the instance and resolutions of the
    pending awaits.  `timerFire oid` is the firing of a flush callback built by
    prepareFlushCbFor (src/LoadNCache.ts lines 171-177) that captured the outcome
    identity `oid` at registration time. -/
inductive Act (α ε : Type)
| get (ret : LoaderReturn α ε)
| flush
| flushDone
| storeResolved (pid : Nat) (r : StoreLoadResult α) (ret : LoaderReturn α ε)
| fromTVDone (pid : Nat)
| expiryResolved (pid : Nat) (expired : Bool) (ret : LoaderReturn α ε)
| loaderResolved (pid : Nat) (r : Except ε α) (now : Int)
| persistDone (pid : Nat)
| timerFire (oid : Option Nat)

/-- One atomic segment of execution.  Resolution actions addressed at a promise id
    with no task parked at the matching suspension point are no-ops. -/
def step (s : CacheState α ε) : Act α ε → CacheState α ε
| Act.get ret => (doGet s ret).1
| Act.flush => doFlush s
| Act.flushDone =>
  match s.pendingFlushes with
  | 0 => s
  | Nat.succ k => emit { s with pendingFlushes := k } Ev.afterFlush
| Act.storeResolved pid r ret =>
  match findTask s pid with
  | some t =>
    match t.phase with
    | Phase.storeLoad =>
      match r with
      | StoreLoadResult.ok (some tv) => setPhase s pid (Phase.fromTV tv)
      | StoreLoadResult.ok none => invokeLoader s pid ret
      | StoreLoadResult.threw => invokeLoader s pid ret
    | _ => s
  | none => s
| Act.fromTVDone pid =>
  match findTask s pid with
  | some t =>
    match t.phase with
    | Phase.fromTV tv =>
      if s.hasAutoflush then
        setPhase { s with nextId := s.nextId + 1 } pid
          (Phase.expiryCheck (PromiseWithMetadata.fromTimestamped s.nextId tv))
      else
        contStart { s with nextId := s.nextId + 1 } pid
          (PromiseWithMetadata.fromTimestamped s.nextId tv)
    | _ => s
  | none => s
| Act.expiryResolved pid expired ret =>
  match findTask s pid with
  | some t =>
    match t.phase with
    | Phase.expiryCheck m =>
      if expired then invokeLoader s pid ret else contStart s pid m
    | _ => s
  | none => s
| Act.loaderResolved pid r now =>
  match findTask s pid with
  | some t =>
    match t.phase with
    | Phase.loaderWait pre =>
      contStart { s with nextId := s.nextId + 1 } pid
        (PromiseWithMetadata.fromSettled s.nextId (pre.getD r) now)
    | _ => s
  | none => s
| Act.persistDone pid =>
  match findTask s pid with
  | some t =>
    match t.phase with
    | Phase.persistWait m => contFinish s pid m
    | _ => s
  | none => s
| Act.timerFire oid =>
  if s.metadata.map (fun m => m.id) = oid then doFlush s else s

/-- Run a scheduler-chosen sequence of atomic segments. -/
def run (s : CacheState α ε) : List (Act α ε) → CacheState α ε
| [] => s
| a :: rest => run (step s a) rest

/-- Actions that execute the body of flush(): an explicit flush call or the firing
    of an autoflush timer callback. -/
def flushLike : Act α ε → Bool
| Act.flush => true
| Act.timerFire _ => true
| _ => false

/-- A trace is quiet when every flush call and timer firing happens while no load
    sequence is in flight. -/
def quietTrace (s : CacheState α ε) : List (Act α ε) → Bool
| [] => true
| a :: rest => (!flushLike a || s.pending.isEmpty) && quietTrace (step s a) rest

/-- The slot relationship the spec asserts, in the form it actually takes in the
    code: at quiescence the two slots are empty together, every in-flight load
    sequence has its shared promise in the slot, and a load parked at the
    post-assignment persist await has the metadata slot occupied. -/
def SlotInv (s : CacheState α ε) : Prop :=
  (s.pending = [] → (s.promise = none ↔ s.metadata = none))
  ∧ (∀ t ∈ s.pending, s.promise = some t.pid)
  ∧ (∀ t ∈ s.pending, ∀ m, t.phase = Phase.persistWait m → s.metadata ≠ none)

theorem run_append (s : CacheState α ε) (l1 l2 : List (Act α ε)) :
    run s (l1 ++ l2) = run (run s l1) l2 := by
  induction l1 generalizing s with
  | nil => rfl
  | cons a l ih => simp [run, ih]

theorem doGet_occupied (s : CacheState α ε) (ret : LoaderReturn α ε) (pid : Nat)
    (h : s.promise = some pid) : doGet s ret = (s, pid) := by
  simp [doGet, h]

theorem run_get_noop (s : CacheState α ε) (ret : LoaderReturn α ε) (pid : Nat)
    (h : s.promise = some pid) (k : Nat) :
    run s (List.replicate k (Act.get ret)) = s := by
  induction k with
  | zero => rfl
  | succ k ih =>
    have hstep : step s (Act.get ret) = s := by
      simp [step, doGet_occupied s ret pid h]
    simp only [List.replicate_succ, run, hstep]
    exact ih

/-- Claim C7: the default time-based expiration policy with TTL `ttl` classifies an
    outcome as expired exactly when `completedAt + ttl <= now`, and a timestamp
    exactly on the boundary (`now = completedAt + ttl`) counts as expired. -/
theorem c7_default_policy_boundary (ttl now : Int) (m : PromiseWithMetadata α ε) :
    (DefaultAutoflushManager.isExpired ttl now m = true ↔ m.completedAt + ttl ≤ now)
    ∧ DefaultAutoflushManager.isExpired ttl (m.completedAt + ttl) m = true := by
  constructor
  · simp only [DefaultAutoflushManager.isExpired, computeTtl, decide_eq_true_eq]
    omega
  · simp only [DefaultAutoflushManager.isExpired, computeTtl, decide_eq_true_eq]
    omega

/-- Claim C9: flush() when no outcome is held is a complete no-op: the state is
    returned unchanged, so no slot changes, no event is emitted and the
    persistence manager's clear is not invoked. -/
theorem c9_flush_without_outcome_noop (s : CacheState α ε) (h : s.metadata = none) :
    step s Act.flush = s := by
  simp [step, doFlush, h]

theorem c9_flush_without_outcome_noop_witness :
    step (initState Int Nat false false) Act.flush = initState Int Nat false false :=
  c9_flush_without_outcome_noop (initState Int Nat false false) rfl

theorem emit_firstLoad (s : CacheState α ε) (e : Ev) : (emit s e).firstLoad = s.firstLoad := by
  unfold emit; split <;> rfl

theorem emit_promise (s : CacheState α ε) (e : Ev) : (emit s e).promise = s.promise := by
  unfold emit; split <;> rfl

theorem emit_metadata (s : CacheState α ε) (e : Ev) : (emit s e).metadata = s.metadata := by
  unfold emit; split <;> rfl

theorem emit_pending (s : CacheState α ε) (e : Ev) : (emit s e).pending = s.pending := by
  unfold emit; split <;> rfl

theorem emit_persistCalls (s : CacheState α ε) (e : Ev) :
    (emit s e).persistCalls = s.persistCalls := by
  unfold emit; split <;> rfl

theorem contFinish_firstLoad (s : CacheState α ε) (pid : Nat) (m : PromiseWithMetadata α ε) :
    (contFinish s pid m).firstLoad = s.firstLoad := by
  simp [contFinish, emit_firstLoad]

theorem contFinish_promise (s : CacheState α ε) (pid : Nat) (m : PromiseWithMetadata α ε) :
    (contFinish s pid m).promise = s.promise := by
  simp [contFinish, emit_promise]

theorem contFinish_metadata (s : CacheState α ε) (pid : Nat) (m : PromiseWithMetadata α ε) :
    (contFinish s pid m).metadata = s.metadata := by
  simp [contFinish, emit_metadata]

theorem contFinish_pending (s : CacheState α ε) (pid : Nat) (m : PromiseWithMetadata α ε) :
    (contFinish s pid m).pending = s.pending.filter (fun t => t.pid ≠ pid) := by
  simp [contFinish]

theorem contFinish_persistCalls (s : CacheState α ε) (pid : Nat) (m : PromiseWithMetadata α ε) :
    (contFinish s pid m).persistCalls = s.persistCalls := by
  simp [contFinish, emit_persistCalls]

theorem setPhase_firstLoad (s : CacheState α ε) (pid : Nat) (ph : Phase α ε) :
    (setPhase s pid ph).firstLoad = s.firstLoad := rfl

theorem setPhase_promise (s : CacheState α ε) (pid : Nat) (ph : Phase α ε) :
    (setPhase s pid ph).promise = s.promise := rfl

theorem setPhase_metadata (s : CacheState α ε) (pid : Nat) (ph : Phase α ε) :
    (setPhase s pid ph).metadata = s.metadata := rfl

theorem setPhase_persistCalls (s : CacheState α ε) (pid : Nat) (ph : Phase α ε) :
    (setPhase s pid ph).persistCalls = s.persistCalls := rfl

theorem contStart_firstLoad (s : CacheState α ε) (pid : Nat) (m : PromiseWithMetadata α ε) :
    (contStart s pid m).firstLoad = s.firstLoad := by
  unfold contStart; split
  · exact setPhase_firstLoad _ _ _
  · simpa using contFinish_firstLoad { s with metadata := some m } pid m

theorem contStart_promise (s : CacheState α ε) (pid : Nat) (m : PromiseWithMetadata α ε) :
    (contStart s pid m).promise = s.promise := by
  unfold contStart; split
  · exact setPhase_promise _ _ _
  · simpa using contFinish_promise { s with metadata := some m } pid m

theorem contStart_metadata (s : CacheState α ε) (pid : Nat) (m : PromiseWithMetadata α ε) :
    (contStart s pid m).metadata = some m := by
  unfold contStart; split
  · exact setPhase_metadata _ _ _
  · simpa using contFinish_metadata { s with metadata := some m } pid m

theorem contStart_persistCalls (s : CacheState α ε) (pid : Nat) (m : PromiseWithMetadata α ε) :
    (contStart s pid m).persistCalls =
      if m.resolved then s.persistCalls ++ [m] else s.persistCalls := by
  unfold contStart; split
  · simp_all [setPhase_persistCalls]
  · simp_all [contFinish_persistCalls]

theorem invokeLoader_firstLoad (s : CacheState α ε) (pid : Nat) (ret : LoaderReturn α ε) :
    (invokeLoader s pid ret).firstLoad = s.firstLoad := rfl

theorem invokeLoader_promise (s : CacheState α ε) (pid : Nat) (ret : LoaderReturn α ε) :
    (invokeLoader s pid ret).promise = s.promise := rfl

theorem invokeLoader_metadata (s : CacheState α ε) (pid : Nat) (ret : LoaderReturn α ε) :
    (invokeLoader s pid ret).metadata = s.metadata := rfl

theorem invokeLoader_persistCalls (s : CacheState α ε) (pid : Nat) (ret : LoaderReturn α ε) :
    (invokeLoader s pid ret).persistCalls = s.persistCalls := rfl

theorem doFlush_firstLoad (s : CacheState α ε) : (doFlush s).firstLoad = s.firstLoad := by
  unfold doFlush; split
  · rfl
  · simp [emit_firstLoad]

theorem doFlush_persistCalls (s : CacheState α ε) :
    (doFlush s).persistCalls = s.persistCalls := by
  unfold doFlush; split
  · rfl
  · simp [emit_persistCalls]

theorem doGet_fst_firstLoad (s : CacheState α ε) (ret : LoaderReturn α ε) :
    (doGet s ret).1.firstLoad = s.firstLoad := by
  unfold doGet; split
  · rfl
  · split <;> simp [emit_firstLoad]

theorem doGet_fst_persistCalls (s : CacheState α ε) (ret : LoaderReturn α ε) :
    (doGet s ret).1.persistCalls = s.persistCalls := by
  unfold doGet; split
  · rfl
  · split <;> simp [emit_persistCalls]

theorem step_firstLoad (s : CacheState α ε) (a : Act α ε) :
    (step s a).firstLoad = s.firstLoad := by
  cases a with
  | get ret => exact doGet_fst_firstLoad s ret
  | flush => exact doFlush_firstLoad s
  | flushDone =>
    simp only [step]; split
    · rfl
    · simp [emit_firstLoad]
  | storeResolved pid r ret =>
    simp only [step]; split
    · split
      · split <;> first | rfl | exact invokeLoader_firstLoad _ _ _
      · rfl
    · rfl
  | fromTVDone pid =>
    simp only [step]; split
    · split
      · split
        · rfl
        · exact contStart_firstLoad _ _ _
      · rfl
    · rfl
  | expiryResolved pid b ret =>
    simp only [step]; split
    · split
      · split
        · exact invokeLoader_firstLoad _ _ _
        · exact contStart_firstLoad _ _ _
      · rfl
    · rfl
  | loaderResolved pid r now =>
    simp only [step]; split
    · split
      · exact contStart_firstLoad _ _ _
      · rfl
    · rfl
  | persistDone pid =>
    simp only [step]; split
    · split
      · exact contFinish_firstLoad _ _ _
      · rfl
    · rfl
  | timerFire oid =>
    simp only [step]; split
    · exact doFlush_firstLoad s
    · rfl

theorem run_firstLoad (s : CacheState α ε) (acts : List (Act α ε)) :
    (run s acts).firstLoad = s.firstLoad := by
  induction acts generalizing s with
  | nil => rfl
  | cons a rest ih => simp [run, ih, step_firstLoad]

theorem contStart_persistCalls_mem (s : CacheState α ε) (pid : Nat)
    (m : PromiseWithMetadata α ε) :
    ∀ x ∈ (contStart s pid m).persistCalls,
      x ∈ s.persistCalls ∨ (x = m ∧ m.resolved = true) := by
  intro x hx
  rw [contStart_persistCalls] at hx
  by_cases h : m.resolved = true
  · rw [if_pos h] at hx
    rcases List.mem_append.mp hx with hx | hx
    · exact Or.inl hx
    · exact Or.inr ⟨List.mem_singleton.mp hx, h⟩
  · rw [if_neg h] at hx
    exact Or.inl hx

theorem step_persistCalls_mem (s : CacheState α ε) (a : Act α ε) :
    ∀ x ∈ (step s a).persistCalls, x ∈ s.persistCalls ∨ x.resolved = true := by
  have hcs : ∀ (s1 : CacheState α ε) (pid : Nat) (m : PromiseWithMetadata α ε),
      ∀ x ∈ (contStart s1 pid m).persistCalls, x ∈ s1.persistCalls ∨ x.resolved = true := by
    intro s1 pid m x hx
    rcases contStart_persistCalls_mem s1 pid m x hx with h | ⟨hxm, hres⟩
    · exact Or.inl h
    · right
      rw [hxm]
      exact hres
  cases a with
  | get ret =>
    intro x hx
    rw [show (step s (Act.get ret)) = (doGet s ret).1 from rfl, doGet_fst_persistCalls] at hx
    exact Or.inl hx
  | flush =>
    intro x hx
    rw [show (step s Act.flush) = doFlush s from rfl, doFlush_persistCalls] at hx
    exact Or.inl hx
  | flushDone =>
    simp only [step]; split
    · exact fun x hx => Or.inl hx
    · intro x hx
      rw [emit_persistCalls] at hx
      exact Or.inl hx
  | storeResolved pid r ret =>
    simp only [step]; split
    · split
      · split <;>
          first
            | exact fun x hx => Or.inl hx
            | (intro x hx; rw [invokeLoader_persistCalls] at hx; exact Or.inl hx)
      · exact fun x hx => Or.inl hx
    · exact fun x hx => Or.inl hx
  | fromTVDone pid =>
    simp only [step]; split
    · split
      · split
        · exact fun x hx => Or.inl hx
        · intro x hx
          have h2 := hcs _ _ _ x hx
          exact h2
      · exact fun x hx => Or.inl hx
    · exact fun x hx => Or.inl hx
  | expiryResolved pid b ret =>
    simp only [step]; split
    · split
      · split
        · intro x hx
          rw [invokeLoader_persistCalls] at hx
          exact Or.inl hx
        · exact fun x hx => hcs _ _ _ x hx
      · exact fun x hx => Or.inl hx
    · exact fun x hx => Or.inl hx
  | loaderResolved pid r now =>
    simp only [step]; split
    · split
      · intro x hx
        have h2 := hcs _ _ _ x hx
        exact h2
      · exact fun x hx => Or.inl hx
    · exact fun x hx => Or.inl hx
  | persistDone pid =>
    simp only [step]; split
    · split
      · intro x hx
        rw [contFinish_persistCalls] at hx
        exact Or.inl hx
      · exact fun x hx => Or.inl hx
    · exact fun x hx => Or.inl hx
  | timerFire oid =>
    simp only [step]; split
    · intro x hx
      rw [doFlush_persistCalls] at hx
      exact Or.inl hx
    · exact fun x hx => Or.inl hx

theorem run_persistCalls_resolved (s : CacheState α ε) (acts : List (Act α ε))
    (h : ∀ x ∈ s.persistCalls, x.resolved = true) :
    ∀ x ∈ (run s acts).persistCalls, x.resolved = true := by
  induction acts generalizing s with
  | nil => exact h
  | cons a rest ih =>
    intro x hx
    refine ih (step s a) (fun y hy => ?_) x hx
    rcases step_persistCalls_mem s a y hy with hy' | hy'
    · exact h y hy'
    · exact hy'

/-- Claim C1: for every N = n+1 >= 1 calls to get() on an empty cache before the
    first suspension point of the load sequence, the shared slot is written
    synchronously by the first call (the post-state of the single atomic get segment
    already has promise = some 0 with the sequence parked at its first await), every
    caller receives the same shared promise id 0, the N calls together leave the
    state of a single call, the loader is invoked exactly once over the completed
    sequence, and the one shared promise settles once, with the loader's settlement,
    so all N callers observe the identical value or identical rejection reason. -/
theorem c1_concurrent_gets_share_one_load (de ha : Bool) (ret ret2 : LoaderReturn α ε)
    (r : Except ε α) (now : Int) (n : Nat) :
    (doGet (initState α ε de ha) ret).2 = 0
    ∧ (step (initState α ε de ha) (Act.get ret)).promise = some 0
    ∧ run (initState α ε de ha) (List.replicate (n + 1) (Act.get ret))
        = step (initState α ε de ha) (Act.get ret)
    ∧ (doGet (step (initState α ε de ha) (Act.get ret)) ret2).2 = 0
    ∧ (run (initState α ε de ha)
        (Act.get ret :: (List.replicate n (Act.get ret) ++
          [Act.storeResolved 0 (StoreLoadResult.ok none) ret2,
           Act.loaderResolved 0 r now, Act.persistDone 0]))).loaderCalls = 1
    ∧ (run (initState α ε de ha)
        (Act.get ret :: (List.replicate n (Act.get ret) ++
          [Act.storeResolved 0 (StoreLoadResult.ok none) ret2,
           Act.loaderResolved 0 r now, Act.persistDone 0]))).settled
        = [(0, (callLoadFunction ret2).getD r)] := by
  have h0 : (step (initState α ε de ha) (Act.get ret)).promise = some 0 := by
    cases de <;> rfl
  have hrep : ∀ k, run (step (initState α ε de ha) (Act.get ret))
      (List.replicate k (Act.get ret)) = step (initState α ε de ha) (Act.get ret) :=
    fun k => run_get_noop _ ret 0 h0 k
  have hkey : ∀ L : List (Act α ε),
      run (initState α ε de ha) (Act.get ret :: (List.replicate n (Act.get ret) ++ L))
        = run (step (initState α ε de ha) (Act.get ret)) L := by
    intro L
    show run (step (initState α ε de ha) (Act.get ret))
        (List.replicate n (Act.get ret) ++ L) = _
    rw [run_append, hrep n]
  refine ⟨by cases de <;> rfl, h0, ?_, ?_, ?_, ?_⟩
  · rw [List.replicate_succ]
    show run (step (initState α ε de ha) (Act.get ret))
        (List.replicate n (Act.get ret)) = _
    exact hrep n
  · rw [doGet_occupied _ ret2 0 h0]
  · rw [hkey]
    cases de <;> cases ha <;> cases ret2 <;> cases r <;> rfl
  · rw [hkey]
    cases de <;> cases ha <;> cases ret2 <;> cases r <;> rfl

/-- Claim C2 states that the persistence restore is attempted at most once per
    instance lifetime and never after a flush.  The code violates this: the field
    `firstLoad` (src/LoadNCache.ts line 53) is initialised to true and NEVER
    assigned again (its only other occurrence is the read at line 117), so the
    guard in loadNewValue passes on every fresh load sequence.  First conjunct:
    firstLoad is still true after any action sequence whatsoever.  Second
    conjunct: after a full load, a flush and a renewed get, the persistence
    manager's loadValue has been invoked twice — the get after the flush consults
    the store again instead of going straight to the loader. -/
theorem c2_store_consulted_again_after_flush (de ha : Bool) (v : α) (now : Int)
    (acts : List (Act α ε)) :
    (run (initState α ε de ha) acts).firstLoad = true
    ∧ (run (initState α ε de ha)
        [Act.get LoaderReturn.promiseSettling,
         Act.storeResolved 0 (StoreLoadResult.ok none) LoaderReturn.promiseSettling,
         Act.loaderResolved 0 (Except.ok v) now,
         Act.persistDone 0,
         Act.flush, Act.flushDone,
         Act.get LoaderReturn.promiseSettling]).storeLoads = 2 := by
  refine ⟨by rw [run_firstLoad]; rfl, ?_⟩
  cases de <;> cases ha <;> rfl

/-- Counterexample to claim C4.  C4 asserts that a flush() called while a load is
    in flight clears the shared slot, so that a subsequent get() starts a second,
    independent load sequence instead of returning the earlier in-flight promise.
    On a fresh cache with one get() in flight, `this.metadata` is still undefined,
    so flush() returns at its very first guard (src/LoadNCache.ts lines 217-219):
    the state is completely unchanged, the shared slot still holds promise 0, and
    the next get() returns that same in-flight promise. -/
theorem c4_counterexample_flush_inflight_noop :
    step (run (initState Int Nat false false) [Act.get LoaderReturn.promiseSettling])
        Act.flush
      = run (initState Int Nat false false) [Act.get LoaderReturn.promiseSettling]
    ∧ (run (initState Int Nat false false)
        [Act.get LoaderReturn.promiseSettling, Act.flush]).promise = some 0
    ∧ (doGet (run (initState Int Nat false false)
        [Act.get LoaderReturn.promiseSettling, Act.flush])
        LoaderReturn.promiseSettling).2 = 0 :=
  ⟨rfl, rfl, rfl⟩

/-- Claim C4, amended: flush() during an in-flight load whose outcome slot is
    empty (the case described by the claim: the loader has been invoked but its
    outcome is not yet established, on a cache that held no earlier outcome) is a
    complete no-op: it does not clear the shared slot and emits nothing, the
    subsequent get() returns the very same in-flight promise id, and when the load
    sequence completes its result IS adopted: the outcome is written to the
    metadata slot and the shared promise settles with it.  The in-flight loader is
    never aborted (there is no cancellation action in the machine at all). -/
theorem c4_amended_flush_inflight_is_noop (de ha : Bool) (ret ret2 : LoaderReturn α ε)
    (r : Except ε α) (now : Int) :
    step (step (initState α ε de ha) (Act.get ret)) Act.flush
      = step (initState α ε de ha) (Act.get ret)
    ∧ (doGet (step (initState α ε de ha) (Act.get ret)) ret2).2 = 0
    ∧ (run (initState α ε de ha)
        [Act.get ret, Act.flush,
         Act.storeResolved 0 (StoreLoadResult.ok none) ret2,
         Act.loaderResolved 0 r now, Act.persistDone 0]).settled
        = [(0, (callLoadFunction ret2).getD r)]
    ∧ (run (initState α ε de ha)
        [Act.get ret, Act.flush,
         Act.storeResolved 0 (StoreLoadResult.ok none) ret2,
         Act.loaderResolved 0 r now, Act.persistDone 0]).metadata.isSome = true := by
  have h0 : (step (initState α ε de ha) (Act.get ret)).promise = some 0 := by
    cases de <;> rfl
  refine ⟨?_, by rw [doGet_occupied _ ret2 0 h0], ?_, ?_⟩
  · have hm : (step (initState α ε de ha) (Act.get ret)).metadata = none := by
      cases de <;> rfl
    show doFlush _ = _
    simp [doFlush, hm]
  · cases de <;> cases ha <;> cases ret2 <;> cases r <;> rfl
  · cases de <;> cases ha <;> cases ret2 <;> cases r <;> rfl

/-- Claim C6: a loader whose load attempt rejects with reason e produces a cached
    rejected outcome: the shared promise settles with the rejection e, the outcome
    in the metadata slot is rejected with result e and carries no timestampedValue,
    any number of subsequent get() calls before a flush return the identical shared
    promise id without changing the state, and the Durable Store's saveValue is
    never invoked for it (the saves log stays empty; safelyCallPersist is not even
    called, since the guard at src/LoadNCache.ts line 195 requires resolved).  The
    last conjunct is the general safety property: along EVERY action sequence,
    every outcome ever passed to safelyCallPersist is resolved, so only resolved
    outcomes are ever persisted. -/
theorem c6_rejected_outcome_cached_never_persisted (de ha : Bool) (e : ε) (now : Int)
    (n : Nat) (ret : LoaderReturn α ε) (acts : List (Act α ε)) :
    (run (initState α ε de ha)
        [Act.get LoaderReturn.promiseSettling,
         Act.storeResolved 0 (StoreLoadResult.ok none) LoaderReturn.promiseSettling,
         Act.loaderResolved 0 (Except.error e) now]).settled
      = [(0, Except.error e)]
    ∧ (run (initState α ε de ha)
        [Act.get LoaderReturn.promiseSettling,
         Act.storeResolved 0 (StoreLoadResult.ok none) LoaderReturn.promiseSettling,
         Act.loaderResolved 0 (Except.error e) now]).metadata
      = some (PromiseWithMetadata.fromSettled 1 (Except.error e) now)
    ∧ (PromiseWithMetadata.fromSettled 1 (Except.error e) now :
        PromiseWithMetadata α ε).rejected = true
    ∧ (PromiseWithMetadata.fromSettled 1 (Except.error e) now :
        PromiseWithMetadata α ε).timestampedValue = none
    ∧ (run (initState α ε de ha)
        [Act.get LoaderReturn.promiseSettling,
         Act.storeResolved 0 (StoreLoadResult.ok none) LoaderReturn.promiseSettling,
         Act.loaderResolved 0 (Except.error e) now]).saves = []
    ∧ (run (initState α ε de ha)
        [Act.get LoaderReturn.promiseSettling,
         Act.storeResolved 0 (StoreLoadResult.ok none) LoaderReturn.promiseSettling,
         Act.loaderResolved 0 (Except.error e) now]).persistCalls = []
    ∧ run (run (initState α ε de ha)
        [Act.get LoaderReturn.promiseSettling,
         Act.storeResolved 0 (StoreLoadResult.ok none) LoaderReturn.promiseSettling,
         Act.loaderResolved 0 (Except.error e) now])
        (List.replicate n (Act.get ret))
      = run (initState α ε de ha)
        [Act.get LoaderReturn.promiseSettling,
         Act.storeResolved 0 (StoreLoadResult.ok none) LoaderReturn.promiseSettling,
         Act.loaderResolved 0 (Except.error e) now]
    ∧ (doGet (run (initState α ε de ha)
        [Act.get LoaderReturn.promiseSettling,
         Act.storeResolved 0 (StoreLoadResult.ok none) LoaderReturn.promiseSettling,
         Act.loaderResolved 0 (Except.error e) now]) ret).2 = 0
    ∧ (∀ x ∈ (run (initState α ε de ha) acts).persistCalls, x.resolved = true) := by
  have h0 : (run (initState α ε de ha)
      [Act.get LoaderReturn.promiseSettling,
       Act.storeResolved 0 (StoreLoadResult.ok none) LoaderReturn.promiseSettling,
       Act.loaderResolved 0 (Except.error e) now]).promise = some 0 := by
    cases de <;> cases ha <;> rfl
  refine ⟨by cases de <;> cases ha <;> rfl, by cases de <;> cases ha <;> rfl, rfl, rfl,
    by cases de <;> cases ha <;> rfl, by cases de <;> cases ha <;> rfl,
    run_get_noop _ ret 0 h0 n, by rw [doGet_occupied _ ret 0 h0],
    run_persistCalls_resolved _ acts (by intro x hx; simp [initState] at hx)⟩

theorem c6_rejected_outcome_cached_never_persisted_witness :
    (∀ x ∈ (run (initState Int Nat false false)
        [Act.flush]).persistCalls, x.resolved = true)
    ∧ (run (initState Int Nat false false)
        [Act.get LoaderReturn.promiseSettling,
         Act.storeResolved 0 (StoreLoadResult.ok none) LoaderReturn.promiseSettling,
         Act.loaderResolved 0 (Except.error 7) 3]).saves = [] :=
  ⟨(c6_rejected_outcome_cached_never_persisted false false 7 3 0
      LoaderReturn.promiseSettling [Act.flush]).2.2.2.2.2.2.2.2,
   (c6_rejected_outcome_cached_never_persisted false false 7 3 0
      LoaderReturn.promiseSettling [Act.flush]).2.2.2.2.1⟩

/-- Claim C8: constructing the outcome wrapper from a restored TimestampedValue
    yields a resolved outcome whose completion timestamp is the persisted ts
    verbatim, and the whole restore-adoption sequence never invokes the loader
    (loaderCalls stays 0); constructing it from a loader invocation awaits the
    loader exactly once (loaderCalls ends at exactly 1) and stamps the outcome
    with the settlement time `now` — the time the load attempt completed, which is
    a free parameter independent of the invocation step — not the invocation
    time. -/
theorem c8_outcome_construction_sources (de : Bool) (idn : Nat) (tv : TimestampedValue α)
    (r : Except ε α) (now : Int) (ret : LoaderReturn α ε) :
    (PromiseWithMetadata.fromTimestamped idn tv : PromiseWithMetadata α ε).resolved = true
    ∧ (PromiseWithMetadata.fromTimestamped idn tv : PromiseWithMetadata α ε).completedAt
        = tv.ts
    ∧ (PromiseWithMetadata.fromSettled idn r now : PromiseWithMetadata α ε).completedAt
        = now
    ∧ (run (initState α ε de true)
        [Act.get ret, Act.storeResolved 0 (StoreLoadResult.ok (some tv)) ret,
         Act.fromTVDone 0, Act.expiryResolved 0 false ret,
         Act.persistDone 0]).loaderCalls = 0
    ∧ (run (initState α ε de true)
        [Act.get ret, Act.storeResolved 0 (StoreLoadResult.ok (some tv)) ret,
         Act.fromTVDone 0, Act.expiryResolved 0 false ret,
         Act.persistDone 0]).metadata
        = some (PromiseWithMetadata.fromTimestamped 1 tv)
    ∧ (run (initState α ε de true)
        [Act.get ret, Act.storeResolved 0 (StoreLoadResult.ok none) ret,
         Act.loaderResolved 0 r now, Act.persistDone 0]).loaderCalls = 1
    ∧ (run (initState α ε de true)
        [Act.get ret, Act.storeResolved 0 (StoreLoadResult.ok none) ret,
         Act.loaderResolved 0 r now, Act.persistDone 0]).metadata
        = some (PromiseWithMetadata.fromSettled 1 ((callLoadFunction ret).getD r) now) := by
  refine ⟨rfl, rfl, ?_, ?_, ?_, ?_, ?_⟩
  · cases r <;> rfl
  · cases de <;> cases ret <;> rfl
  · cases de <;> cases ret <;> rfl
  · cases de <;> cases ret <;> cases r <;> rfl
  · cases de <;> cases ret <;> cases r <;> rfl

/-- Claim C10: a loader that throws synchronously never makes get() throw: the
    async callLoadFunction wrapper captures the synchronous throw as a rejection of
    the promise it returns (first conjunct), get() on an empty cache hands every
    caller the shared promise id 0 (doGet is a total function returning a promise
    id), and the shared outcome all callers observe is the rejection carrying the
    thrown error — regardless of how the scheduler would have settled a returned
    promise (the `rIgnored` parameter is irrelevant because the settlement was
    predetermined at invocation time). -/
theorem c10_sync_throw_becomes_shared_rejection (de ha : Bool) (e : ε)
    (rIgnored : Except ε α) (now : Int) (n : Nat) :
    (callLoadFunction (LoaderReturn.throwsSync e) : Option (Except ε α))
        = some (Except.error e)
    ∧ (doGet (initState α ε de ha) (LoaderReturn.throwsSync e)).2 = 0
    ∧ (run (initState α ε de ha)
        [Act.get (LoaderReturn.throwsSync e),
         Act.storeResolved 0 (StoreLoadResult.ok none) (LoaderReturn.throwsSync e),
         Act.loaderResolved 0 rIgnored now]).settled = [(0, Except.error e)]
    ∧ (run (initState α ε de ha)
        [Act.get (LoaderReturn.throwsSync e),
         Act.storeResolved 0 (StoreLoadResult.ok none) (LoaderReturn.throwsSync e),
         Act.loaderResolved 0 rIgnored now]).metadata
        = some (PromiseWithMetadata.fromSettled 1 (Except.error e) now)
    ∧ run (run (initState α ε de ha)
        [Act.get (LoaderReturn.throwsSync e),
         Act.storeResolved 0 (StoreLoadResult.ok none) (LoaderReturn.throwsSync e),
         Act.loaderResolved 0 rIgnored now])
        (List.replicate n (Act.get (LoaderReturn.throwsSync e)))
      = run (initState α ε de ha)
        [Act.get (LoaderReturn.throwsSync e),
         Act.storeResolved 0 (StoreLoadResult.ok none) (LoaderReturn.throwsSync e),
         Act.loaderResolved 0 rIgnored now] := by
  have h0 : (run (initState α ε de ha)
      [Act.get (LoaderReturn.throwsSync e),
       Act.storeResolved 0 (StoreLoadResult.ok none) (LoaderReturn.throwsSync e),
       Act.loaderResolved 0 rIgnored now]).promise = some 0 := by
    cases de <;> cases ha <;> rfl
  exact ⟨rfl, by cases de <;> rfl, by cases de <;> cases ha <;> rfl,
    by cases de <;> cases ha <;> rfl, run_get_noop _ _ 0 h0 n⟩

theorem findTask_mem (s : CacheState α ε) (pid : Nat) (t : LoadTask α ε)
    (h : findTask s pid = some t) : t ∈ s.pending ∧ t.pid = pid := by
  refine ⟨List.mem_of_find?_eq_some h, ?_⟩
  have h2 := List.find?_some h
  simpa using h2

theorem slotInv_setPhase (s : CacheState α ε) (pid : Nat) (ph : Phase α ε)
    (hInv : SlotInv s)
    (hOK : ∀ m, ph = Phase.persistWait m → s.metadata ≠ none) :
    SlotInv (setPhase s pid ph) := by
  obtain ⟨h1, h2, h3⟩ := hInv
  refine ⟨?_, ?_, ?_⟩
  · intro hp
    rw [setPhase_promise, setPhase_metadata]
    apply h1
    simp only [setPhase] at hp
    exact List.map_eq_nil_iff.mp hp
  · intro t ht
    rw [setPhase_promise]
    simp only [setPhase] at ht
    obtain ⟨u, hu, hut⟩ := List.mem_map.mp ht
    have hpid : t.pid = u.pid := by
      rw [← hut]; split <;> rfl
    rw [hpid]
    exact h2 u hu
  · intro t ht mm hph
    rw [setPhase_metadata]
    simp only [setPhase] at ht
    obtain ⟨u, hu, hut⟩ := List.mem_map.mp ht
    by_cases hcase : u.pid = pid
    · refine hOK mm ?_
      rw [← hph, ← hut]
      simp [hcase]
    · refine h3 u hu mm ?_
      rw [← hph, ← hut]
      simp [hcase]

theorem slotInv_contFinish (s : CacheState α ε) (pid : Nat) (m : PromiseWithMetadata α ε)
    (h2 : ∀ t ∈ s.pending, s.promise = some t.pid)
    (hprom : s.promise = some pid) (hmeta : s.metadata ≠ none) :
    SlotInv (contFinish s pid m) := by
  refine ⟨?_, ?_, ?_⟩
  · intro _
    rw [contFinish_promise, contFinish_metadata, hprom]
    constructor
    · intro h
      exact Option.noConfusion h
    · intro h
      exact absurd h hmeta
  · intro t ht
    rw [contFinish_promise]
    rw [contFinish_pending] at ht
    exact h2 t (List.mem_of_mem_filter ht)
  · intro t ht mm hph
    rw [contFinish_metadata]
    exact hmeta

theorem slotInv_contStart (s : CacheState α ε) (pid : Nat) (m : PromiseWithMetadata α ε)
    (hInv : SlotInv s) (t0 : LoadTask α ε) (ht0 : t0 ∈ s.pending) (hpid0 : t0.pid = pid) :
    SlotInv (contStart s pid m) := by
  obtain ⟨h1, h2, h3⟩ := hInv
  have hprom : s.promise = some pid := by
    rw [← hpid0]
    exact h2 t0 ht0
  unfold contStart
  split
  · refine slotInv_setPhase _ pid _ ⟨?_, ?_, ?_⟩ ?_
    · intro hp
      exfalso
      have hsp : s.pending = [] := hp
      rw [hsp] at ht0
      exact absurd ht0 (List.not_mem_nil t0)
    · exact h2
    · intro t ht mm hph
      exact fun hc => Option.noConfusion hc
    · intro mm _
      exact fun hc => Option.noConfusion hc
  · refine slotInv_contFinish _ pid m h2 hprom ?_
    exact fun hc => Option.noConfusion hc

theorem slotInv_doFlush (s : CacheState α ε) (hInv : SlotInv s) (hpend : s.pending = []) :
    SlotInv (doFlush s) := by
  unfold doFlush
  split
  · exact hInv
  · refine ⟨?_, ?_, ?_⟩
    · intro _
      constructor
      · intro _
        rfl
      · intro _
        rfl
    · intro t ht
      exfalso
      simp only [emit_pending] at ht
      rw [hpend] at ht
      exact absurd ht (List.not_mem_nil t)
    · intro t ht mm hph
      exfalso
      simp only [emit_pending] at ht
      rw [hpend] at ht
      exact absurd ht (List.not_mem_nil t)

theorem slotInv_step (s : CacheState α ε) (a : Act α ε) (hInv : SlotInv s)
    (hq : flushLike a = true → s.pending = []) : SlotInv (step s a) := by
  obtain ⟨h1, h2, h3⟩ := hInv
  cases a with
  | get ret =>
    show SlotInv (doGet s ret).1
    rcases hp : s.promise with _ | pid
    · have hpend : s.pending = [] := by
        cases hpd : s.pending with
        | nil => rfl
        | cons t l =>
          have hc := h2 t (by rw [hpd]; exact List.mem_cons_self t l)
          rw [hp] at hc
          cases hc
      simp only [doGet, hp]
      split
      · refine ⟨?_, ?_, ?_⟩
        · intro hcontra
          simp only [hpend] at hcontra
          simp at hcontra
        · intro t ht
          simp only [hpend, List.nil_append, List.mem_singleton] at ht
          subst ht
          rfl
        · intro t ht mm hph
          simp only [hpend, List.nil_append, List.mem_singleton] at ht
          subst ht
          simp at hph
      · refine ⟨?_, ?_, ?_⟩
        · intro hcontra
          simp only [hpend] at hcontra
          simp at hcontra
        · intro t ht
          simp only [hpend, List.nil_append, List.mem_singleton] at ht
          subst ht
          rfl
        · intro t ht mm hph
          simp only [hpend, List.nil_append, List.mem_singleton] at ht
          subst ht
          simp at hph
    · rw [doGet_occupied s ret pid hp]
      exact ⟨h1, h2, h3⟩
  | flush =>
    have hpend : s.pending = [] := hq rfl
    exact slotInv_doFlush s ⟨h1, h2, h3⟩ hpend
  | flushDone =>
    simp only [step]
    split
    · exact ⟨h1, h2, h3⟩
    · refine ⟨?_, ?_, ?_⟩
      · intro hp
        simp only [emit_promise, emit_metadata]
        apply h1
        simp only [emit_pending] at hp
        exact hp
      · intro t ht
        simp only [emit_promise]
        simp only [emit_pending] at ht
        exact h2 t ht
      · intro t ht mm hph
        simp only [emit_metadata]
        simp only [emit_pending] at ht
        exact h3 t ht mm hph
  | storeResolved pid r ret =>
    simp only [step]
    cases hft : findTask s pid with
    | none => exact ⟨h1, h2, h3⟩
    | some t =>
      obtain ⟨tp, tph⟩ := t
      obtain ⟨hmem, hpid⟩ := findTask_mem s pid _ hft
      cases tph with
      | storeLoad =>
        dsimp only
        cases r with
        | ok v =>
          cases v with
          | none =>
            exact slotInv_setPhase _ pid _ ⟨h1, h2, h3⟩ (fun mm hc => nomatch hc)
          | some tv =>
            exact slotInv_setPhase _ pid _ ⟨h1, h2, h3⟩ (fun mm hc => nomatch hc)
        | threw =>
          exact slotInv_setPhase _ pid _ ⟨h1, h2, h3⟩ (fun mm hc => nomatch hc)
      | fromTV tv => exact ⟨h1, h2, h3⟩
      | expiryCheck m => exact ⟨h1, h2, h3⟩
      | loaderWait pre => exact ⟨h1, h2, h3⟩
      | persistWait m => exact ⟨h1, h2, h3⟩
  | fromTVDone pid =>
    simp only [step]
    cases hft : findTask s pid with
    | none => exact ⟨h1, h2, h3⟩
    | some t =>
      obtain ⟨tp, tph⟩ := t
      obtain ⟨hmem, hpid⟩ := findTask_mem s pid _ hft
      cases tph with
      | fromTV tv =>
        dsimp only
        split
        · exact slotInv_setPhase _ pid _ ⟨h1, h2, h3⟩ (fun mm hc => nomatch hc)
        · exact slotInv_contStart _ pid _ ⟨h1, h2, h3⟩ _ hmem hpid
      | storeLoad => exact ⟨h1, h2, h3⟩
      | expiryCheck m => exact ⟨h1, h2, h3⟩
      | loaderWait pre => exact ⟨h1, h2, h3⟩
      | persistWait m => exact ⟨h1, h2, h3⟩
  | expiryResolved pid b ret =>
    simp only [step]
    cases hft : findTask s pid with
    | none => exact ⟨h1, h2, h3⟩
    | some t =>
      obtain ⟨tp, tph⟩ := t
      obtain ⟨hmem, hpid⟩ := findTask_mem s pid _ hft
      cases tph with
      | expiryCheck m =>
        dsimp only
        split
        · exact slotInv_setPhase _ pid _ ⟨h1, h2, h3⟩ (fun mm hc => nomatch hc)
        · exact slotInv_contStart _ pid _ ⟨h1, h2, h3⟩ _ hmem hpid
      | storeLoad => exact ⟨h1, h2, h3⟩
      | fromTV tv => exact ⟨h1, h2, h3⟩
      | loaderWait pre => exact ⟨h1, h2, h3⟩
      | persistWait m => exact ⟨h1, h2, h3⟩
  | loaderResolved pid r now =>
    simp only [step]
    cases hft : findTask s pid with
    | none => exact ⟨h1, h2, h3⟩
    | some t =>
      obtain ⟨tp, tph⟩ := t
      obtain ⟨hmem, hpid⟩ := findTask_mem s pid _ hft
      cases tph with
      | loaderWait pre =>
        dsimp only
        exact slotInv_contStart _ pid _ ⟨h1, h2, h3⟩ _ hmem hpid
      | storeLoad => exact ⟨h1, h2, h3⟩
      | fromTV tv => exact ⟨h1, h2, h3⟩
      | expiryCheck m => exact ⟨h1, h2, h3⟩
      | persistWait m => exact ⟨h1, h2, h3⟩
  | persistDone pid =>
    simp only [step]
    cases hft : findTask s pid with
    | none => exact ⟨h1, h2, h3⟩
    | some t =>
      obtain ⟨tp, tph⟩ := t
      obtain ⟨hmem, hpid⟩ := findTask_mem s pid _ hft
      cases tph with
      | persistWait m =>
        dsimp only
        refine slotInv_contFinish _ pid m h2 ?_ ?_
        · rw [← hpid]
          exact h2 _ hmem
        · exact h3 _ hmem m rfl
      | storeLoad => exact ⟨h1, h2, h3⟩
      | fromTV tv => exact ⟨h1, h2, h3⟩
      | expiryCheck m => exact ⟨h1, h2, h3⟩
      | loaderWait pre => exact ⟨h1, h2, h3⟩
  | timerFire oid =>
    have hpend : s.pending = [] := hq rfl
    simp only [step]
    split
    · exact slotInv_doFlush s ⟨h1, h2, h3⟩ hpend
    · exact ⟨h1, h2, h3⟩

theorem slotInv_run (s : CacheState α ε) (acts : List (Act α ε)) (hInv : SlotInv s)
    (hq : quietTrace s acts = true) : SlotInv (run s acts) := by
  induction acts generalizing s with
  | nil => exact hInv
  | cons a rest ih =>
    simp only [quietTrace, Bool.and_eq_true, Bool.or_eq_true] at hq
    obtain ⟨hq1, hq2⟩ := hq
    refine ih (step s a) (slotInv_step s a hInv ?_) hq2
    intro hfl
    rcases hq1 with hq1 | hq1
    · rw [hfl] at hq1
      cases hq1
    · exact List.isEmpty_iff.mp hq1

/-- Counterexample to claim C3.  C3 asserts currentLoad is empty iff currentOutcome
    is empty at every reachable state, explicitly including states where a load is
    in flight.  The state reached from a fresh cache by one get() is reachable and
    violates the iff: the promise slot is written synchronously by get
    (src/LoadNCache.ts line 192) while the metadata slot is only assigned inside
    the then-continuation (line 193) after loadNewValue resolves, so mid-flight the
    promise slot holds the shared promise and the metadata slot is still empty. -/
theorem c3_counterexample_inflight_slots_differ :
    (run (initState Int Nat false false) [Act.get LoaderReturn.promiseSettling]).promise
      = some 0
    ∧ (run (initState Int Nat false false) [Act.get LoaderReturn.promiseSettling]).metadata
      = none :=
  ⟨rfl, rfl⟩

/-- Claim C3, amended: along every trace in which flush() and autoflush timer
    callbacks run only while no load sequence is in flight, every reached state
    satisfies: whenever no load is in flight the promise slot is empty iff the
    metadata slot is empty, and while a load sequence is in flight the promise
    slot holds exactly that sequence's shared promise (so it is non-empty while
    the outcome slot may still be empty). -/
theorem c3_amended_slots_iff_at_quiescence (de ha : Bool) (acts : List (Act α ε))
    (hq : quietTrace (initState α ε de ha) acts = true) :
    SlotInv (run (initState α ε de ha) acts) := by
  refine slotInv_run _ acts ⟨?_, ?_, ?_⟩ hq
  · intro _
    constructor
    · intro _
      rfl
    · intro _
      rfl
  · intro t ht
    exact absurd ht (List.not_mem_nil t)
  · intro t ht mm hph
    exact absurd ht (List.not_mem_nil t)

theorem c3_amended_slots_iff_at_quiescence_witness :
    SlotInv (run (initState Int Nat false false)
      [Act.get LoaderReturn.promiseSettling,
       Act.storeResolved 0 (StoreLoadResult.ok none) LoaderReturn.promiseSettling,
       Act.loaderResolved 0 (Except.ok 5) 3, Act.persistDone 0, Act.flush]) :=
  c3_amended_slots_iff_at_quiescence false false
    [Act.get LoaderReturn.promiseSettling,
     Act.storeResolved 0 (StoreLoadResult.ok none) LoaderReturn.promiseSettling,
     Act.loaderResolved 0 (Except.ok 5) 3, Act.persistDone 0, Act.flush] rfl

/-- Claim C5: firing the autoflush callback built by prepareFlushCbFor
    (src/LoadNCache.ts lines 171-177) for the outcome with identity k calls
    flush() exactly when the instance's current outcome is still that exact
    outcome: when the metadata slot is empty, or holds an outcome with a
    different identity (any outcome installed by a later load, or none after a
    flush or refresh replaced it), the callback returns without any effect — the
    state is unchanged, so the newer outcome is never flushed; when the current
    outcome still has identity k the callback performs the flush body. -/
theorem c5_timer_callback_identity_guard (s : CacheState α ε) (k : Nat) :
    (s.metadata = none → step s (Act.timerFire (some k)) = s)
    ∧ (∀ m, s.metadata = some m → m.id ≠ k → step s (Act.timerFire (some k)) = s)
    ∧ (∀ m, s.metadata = some m → m.id = k → step s (Act.timerFire (some k)) = doFlush s) := by
  refine ⟨?_, ?_, ?_⟩
  · intro h
    simp [step, h]
  · intro m hm hk
    simp [step, hm, hk]
  · intro m hm hk
    simp [step, hm, hk]

theorem c5_timer_callback_identity_guard_witness :
    step (run (initState Int Nat false false)
        [Act.get LoaderReturn.promiseSettling,
         Act.storeResolved 0 (StoreLoadResult.ok none) LoaderReturn.promiseSettling,
         Act.loaderResolved 0 (Except.ok 5) 3, Act.persistDone 0])
        (Act.timerFire (some 0))
      = run (initState Int Nat false false)
        [Act.get LoaderReturn.promiseSettling,
         Act.storeResolved 0 (StoreLoadResult.ok none) LoaderReturn.promiseSettling,
         Act.loaderResolved 0 (Except.ok 5) 3, Act.persistDone 0]
    ∧ step (run (initState Int Nat false false)
        [Act.get LoaderReturn.promiseSettling,
         Act.storeResolved 0 (StoreLoadResult.ok none) LoaderReturn.promiseSettling,
         Act.loaderResolved 0 (Except.ok 5) 3, Act.persistDone 0])
        (Act.timerFire (some 1))
      = doFlush (run (initState Int Nat false false)
        [Act.get LoaderReturn.promiseSettling,
         Act.storeResolved 0 (StoreLoadResult.ok none) LoaderReturn.promiseSettling,
         Act.loaderResolved 0 (Except.ok 5) 3, Act.persistDone 0]) :=
  ⟨(c5_timer_callback_identity_guard _ 0).2.1
      (PromiseWithMetadata.fromSettled 1 (Except.ok 5) 3) rfl (by decide),
   (c5_timer_callback_identity_guard _ 1).2.2
      (PromiseWithMetadata.fromSettled 1 (Except.ok 5) 3) rfl rfl⟩
